import Mathlib

/-!
Verification of the Note-Ify voice-session bot.

The repository contains two parallel implementations of the same pipeline:
* `src/index.js` + `src/utils.js` — the standalone command-handler version,
  with a process-global transcription queue (`TranscriptionQueue`,
  `TranscriptionWorking`, `EnqueueTranscription`, `DequeueTranscription`)
  and a `currentSessions` map of per-GM session records;
* `src/unnamed/part_000` (a `Handler` class owning the queue, chat log and
  token count per session) together with the utils variant embedded in
  `src/unnamed/part_001`.

This file shallowly embeds both variants: pure helpers become Lean
functions on `String`/`List`; JavaScript `Map`s become association lists;
the single-threaded event loop becomes a fold of atomic events (one event
per run-to-completion segment between `await` suspension points) over an
explicit state record.  JavaScript numbers are modelled as `Nat`/`Int`;
the only floating-point computations reachable by the claims
(`MAX_TOKEN_LIMIT * 0.75` and `MAX_TOKEN_LIMIT * 0.85` with
`MAX_TOKEN_LIMIT = 40000`, and `Math.ceil(length / 4)` for string lengths
far below 2^52) are exact in IEEE doubles, so they are embedded as the
corresponding exact integer values.
-/

namespace NoteIfy

/-! ## Constants shared by `src/utils.js` and the utils variant in
`src/unnamed/part_001` (identical text in both files). -/

/-- Role identifier for system-level messages (`SYSTEM`). -/
def SYSTEM : String := "system"

/-- Role identifier for user-level messages (`USER`). -/
def USER : String := "user"

/-- Role identifier for assistant-level messages (`ASSISTANT`). -/
def ASSISTANT : String := "assistant"

/-- Constant `SILENCE_DURATION`: milliseconds of trailing silence that end an
opus subscription, subtracted from the end timestamp. -/
def SILENCE_DURATION : Nat := 500

/-- Constant `MAX_TOKEN_LIMIT`: the token budget for the summarization model. -/
def MAX_TOKEN_LIMIT : Nat := 40000

/-- Constant `REPLY_PROMPT` (identical in both utils variants). -/
def REPLY_PROMPT : String :=
  "You will now take feedback on your markdown summary and apply based on user's preference."

/-- Constant `INITIAL_PROMPT` as defined in `src/utils.js` (used by the
`src/index.js` command handlers). -/
def INITIAL_PROMPT : String :=
  "You are a tabletop role-playing game summarizer. Please summarize the conversation and plot between the following <player> and </player> delimiters. In your response, return a markdown formatted list of current session events, player conversations, notable/funny quotes, and role-play interactions. Your list should retell the session as though it is a story. Be direct, brief, and most of all clear in your summary."

/-- Constant `INITIAL_PROMPT` as defined in the utils variant embedded in
`src/unnamed/part_001` (imported by the `Handler` class in
`src/unnamed/part_000`); the wording differs slightly from the
`src/utils.js` version but no claim depends on the text. -/
def INITIAL_PROMPT_H : String :=
  "You are a tabletop role-playing game summarizer. Please summarize the conversation and plot between the following <player> and </player> delimiters. In your response, return a markdown formatted list that tells a story of current session events, player conversations, notable/funny quotes, and role-play interactions. Your list should retell the session as though someone is sharing a tale. Be direct and clear in your retelling."

/-! ## `EstimateTokens` (`src/utils.js` lines 139-143, identical in
`src/unnamed/part_001` lines 163-167). -/

/-- Function `EstimateTokens(text)`: `if (!text) return 0; return Math.ceil(text.length / 4)`.
The empty string is falsy in JavaScript, so it hits the guard (the guard
also covers `null`/`undefined`, which cannot occur at the `String` type
of any call site embedded here).  `Math.ceil (L / 4)` is exact for every
length produced by a JavaScript string and equals `(L + 3) / 4` in `Nat`. -/
def EstimateTokens (text : String) : Nat :=
  if text = "" then 0 else (text.length + 3) / 4

/-! ## `CleanTranscription` (`src/utils.js` lines 152-154, identical in
`src/unnamed/part_001` lines 176-178):
`text.replace(/\s*\[BLANK_AUDIO\]\s*|""/g, "")`.

The JavaScript `replace` with a `/g` regex performs one left-to-right
scan: at each position it first tries the alternative
`\s*\[BLANK_AUDIO\]\s*` (greedy `\s*`; since `[` is not a whitespace
character, backtracking never helps, so the alternative matches exactly
when the maximal whitespace run from the current position is followed by
the literal `[BLANK_AUDIO]`, and then it also swallows the maximal
trailing whitespace run), then the alternative `""`; on a match it drops
the matched characters and resumes *after* them (removed regions are
never re-scanned), otherwise it keeps the character and advances by one.
Neither alternative can match the empty string, so the scan consumes at
least one character per step; the `fuel` argument (instantiated with the
input length) makes the recursion structural. -/

/-- The JavaScript `\s` character class. -/
def isJsWhitespace (c : Char) : Bool :=
  c = ' ' || c = '\t' || c = '\n' || c = '\r' ||
  c = '\x0b' || c = '\x0c' ||
  c = ' ' || c = ' ' ||
  (' ' ≤ c && c ≤ ' ') ||
  c = ' ' || c = ' ' || c = ' ' || c = ' ' ||
  c = '　' || c = '﻿'

/-- The literal `[BLANK_AUDIO]` as a character list. -/
def blankAudioMarker : List Char := "[BLANK_AUDIO]".data

/-- Attempt to match the alternative `\s*\[BLANK_AUDIO\]\s*` at the head
of `l`; on success return the remainder of the input after the match. -/
def matchBlankAudio (l : List Char) : Option (List Char) :=
  let afterWs := l.dropWhile isJsWhitespace
  if blankAudioMarker.isPrefixOf afterWs then
    some ((afterWs.drop blankAudioMarker.length).dropWhile isJsWhitespace)
  else
    none

/-- One pass of the global regex replace, parametrized by fuel. -/
def cleanAux : Nat → List Char → List Char
  | 0, l => l
  | _ + 1, [] => []
  | fuel + 1, c :: rest =>
    match matchBlankAudio (c :: rest) with
    | some rest' => cleanAux fuel rest'
    | none =>
      if c = '"' ∧ rest.head? = some '"' then
        cleanAux fuel rest.tail
      else
        c :: cleanAux fuel rest

/-- Function `CleanTranscription(text)`: remove every non-overlapping
left-to-right match of `\s*\[BLANK_AUDIO\]\s*|""`. -/
def CleanTranscription (text : String) : String :=
  ⟨cleanAux text.data.length text.data⟩

/-- Decidable "contains the pattern `pat` as a contiguous substring". -/
def hasSub (pat : List Char) : List Char → Bool
  | [] => pat.isEmpty
  | c :: rest => pat.isPrefixOf (c :: rest) || hasSub pat rest

/-! ## `ExtractUserId` (`src/utils.js` lines 163-176, identical in
`src/unnamed/part_001` lines 187-200):
`if (!mention) return null; const match = mention.match(/^<@!?(\d+)>$/); return match ? match[1] : null;`.

The input is `Option String` so that the JavaScript `null`/`undefined`
arguments are representable; the empty string is falsy and hits the
`!mention` guard.  The anchored regex matches exactly when the whole
input is `<@`, an optional `!`, one or more digits, and `>`: the greedy
`\d+` takes the maximal digit run (backtracking cannot help because the
following literal `>` is not a digit), and the greedy `!?` consumes a
present `!` (backtracking cannot help because `!` is not a digit). -/

/-- The part `(\d+)>$` of the regex: the maximal digit run, which must
be non-empty and followed by exactly the final `>`. -/
def mentionDigits (rest' : List Char) : Option String :=
  if rest'.takeWhile Char.isDigit ≠ [] ∧
      rest'.dropWhile Char.isDigit = ['>'] then
    some ⟨rest'.takeWhile Char.isDigit⟩
  else
    none

/-- The regex match `^<@!?(\d+)>$` on a character list, returning the
captured digit group. -/
def matchMentionId (l : List Char) : Option String :=
  match l with
  | c1 :: c2 :: rest =>
    if c1 = '<' ∧ c2 = '@' then
      mentionDigits (if rest.head? = some '!' then rest.tail else rest)
    else
      none
  | _ => none

/-- Function `ExtractUserId(mention)`. -/
def ExtractUserId : Option String → Option String
  | none => none
  | some mention =>
    if mention = "" then none
    else matchMentionId mention.data

/-! ## Lemmas about `cleanAux` / `CleanTranscription` -/

theorem hasSub_of_tail {pat : List Char} {c : Char} {rest : List Char}
    (h : hasSub pat rest = true) : hasSub pat (c :: rest) = true := by
  simp only [hasSub, Bool.or_eq_true]
  exact Or.inr h

theorem hasSub_of_prefixOf_dropWhile {pat : List Char} (hne : pat ≠ [])
    (p : Char → Bool) :
    ∀ l : List Char, pat.isPrefixOf (l.dropWhile p) = true →
      hasSub pat l = true := by
  intro l
  induction l with
  | nil =>
    intro h
    simp only [List.dropWhile_nil] at h
    cases pat with
    | nil => exact absurd rfl hne
    | cons a t => simp [List.isPrefixOf] at h
  | cons c rest ih =>
    intro h
    rw [List.dropWhile_cons] at h
    by_cases hc : p c = true
    · rw [if_pos hc] at h
      exact hasSub_of_tail (ih h)
    · rw [if_neg hc] at h
      simp only [hasSub, Bool.or_eq_true]
      exact Or.inl h

theorem matchBlankAudio_hasSub {l rest' : List Char}
    (h : matchBlankAudio l = some rest') :
    hasSub blankAudioMarker l = true := by
  unfold matchBlankAudio at h
  by_cases hp : blankAudioMarker.isPrefixOf (l.dropWhile isJsWhitespace) = true
  · exact hasSub_of_prefixOf_dropWhile (by decide) isJsWhitespace l hp
  · rw [if_neg (by simpa using hp)] at h
    exact absurd h (by simp)

/-- Unfolding equation for `cleanAux` on a cons cell. -/
theorem cleanAux_cons (n : Nat) (c : Char) (rest : List Char) :
    cleanAux (n + 1) (c :: rest) =
      (match matchBlankAudio (c :: rest) with
        | some rest' => cleanAux n rest'
        | none =>
          if c = '"' ∧ rest.head? = some '"' then
            cleanAux n rest.tail
          else
            c :: cleanAux n rest) := rfl

/-- If the input contains neither a `[BLANK_AUDIO]` marker nor an empty
quote pair as a substring, the cleaning scan finds no match and returns
the input unchanged. -/
theorem cleanAux_eq_self (fuel : Nat) :
    ∀ l : List Char, hasSub blankAudioMarker l = false →
      hasSub ('"' :: '"' :: []) l = false →
      cleanAux fuel l = l := by
  induction fuel with
  | zero => intro l _ _; rfl
  | succ n ih =>
    intro l h1 h2
    cases l with
    | nil => rfl
    | cons c rest =>
      rw [cleanAux_cons]
      cases hm : matchBlankAudio (c :: rest) with
      | some rest' =>
        exact absurd (matchBlankAudio_hasSub hm) (by simp [h1])
      | none =>
        have hq : ¬(c = '"' ∧ rest.head? = some '"') := by
          rintro ⟨rfl, hh⟩
          cases rest with
          | nil => simp at hh
          | cons d t =>
            simp only [List.head?_cons, Option.some.injEq] at hh
            subst hh
            simp [hasSub, List.isPrefixOf] at h2
        rw [if_neg hq]
        have h1' : hasSub blankAudioMarker rest = false := by
          by_contra hx
          simp only [Bool.not_eq_false] at hx
          rw [hasSub_of_tail hx] at h1
          exact absurd h1 (by simp)
        have h2' : hasSub ('"' :: '"' :: []) rest = false := by
          by_contra hx
          simp only [Bool.not_eq_false] at hx
          rw [hasSub_of_tail hx] at h2
          exact absurd h2 (by simp)
        rw [ih rest h1' h2']

/-- C9 (amended): `CleanTranscription` is a single left-to-right pass:
it removes every non-overlapping leftmost match of the whitespace-padded
blank-audio marker or of an empty quote pair, but it never re-scans the
text created by a removal, so a marker or quote pair formed by the
juxtaposition of the text around a removed match survives in the output;
an input containing no marker and no empty quote pair is returned
unchanged, and artifacts present in the input are removed. -/
theorem cleanTranscription_single_pass :
    (∀ s : String, hasSub blankAudioMarker s.data = false →
        hasSub ('"' :: '"' :: []) s.data = false →
        CleanTranscription s = s) ∧
    CleanTranscription "foo [BLANK_AUDIO] bar" = "foobar" := by
  constructor
  · intro s h1 h2
    show (⟨cleanAux s.data.length s.data⟩ : String) = s
    rw [cleanAux_eq_self s.data.length s.data h1 h2]
  · rfl

/-- Witness for C9 (amended): a concrete artifact-free input is returned
unchanged. -/
theorem cleanTranscription_single_pass_witness :
    CleanTranscription "hello world" = "hello world" :=
  cleanTranscription_single_pass.1 "hello world" (by decide) (by decide)

/-- C9 (counterexample): cleaning `"[BLANK_AUDIO]"` (a quote, the
blank-audio marker, a quote) removes the marker and joins the two quotes
into the empty quote pair `""`, which therefore occurs in the output;
likewise a nested marker survives cleaning.  This refutes the claim that
for every input the output of `CleanTranscription` contains no occurrence
of `[BLANK_AUDIO]` and no empty quote pair. -/
theorem cleanTranscription_artifact_survives :
    CleanTranscription "\"[BLANK_AUDIO]\"" = "\"\"" ∧
    hasSub ('"' :: '"' :: []) (CleanTranscription "\"[BLANK_AUDIO]\"").data = true ∧
    hasSub blankAudioMarker (CleanTranscription "[BLANK[BLANK_AUDIO]_AUDIO]").data = true :=
  ⟨rfl, rfl, rfl⟩

/-! ## Lemmas about `ExtractUserId` -/

theorem extractUserId_none : ExtractUserId none = none := rfl

theorem extractUserId_some (mention : String) :
    ExtractUserId (some mention) =
      if mention = "" then none else matchMentionId mention.data := rfl

theorem matchMentionId_cons (c1 c2 : Char) (rest : List Char) :
    matchMentionId (c1 :: c2 :: rest) =
      (if c1 = '<' ∧ c2 = '@' then
        mentionDigits (if rest.head? = some '!' then rest.tail else rest)
      else none) := rfl

theorem takeWhile_all_append {p : Char → Bool} (c : Char) (t : List Char)
    (hc : p c = false) :
    ∀ l : List Char, (∀ x ∈ l, p x = true) →
      (l ++ c :: t).takeWhile p = l ∧ (l ++ c :: t).dropWhile p = c :: t := by
  intro l
  induction l with
  | nil =>
    intro _
    constructor
    · simp [List.takeWhile_cons, hc]
    · simp [List.dropWhile_cons, hc]
  | cons a l ih =>
    intro hl
    have ha : p a = true := hl a (by simp)
    have ih' := ih (fun x hx => hl x (by simp [hx]))
    constructor
    · simp only [List.cons_append, List.takeWhile_cons, ha, if_true, ih'.1]
    · simp only [List.cons_append, List.dropWhile_cons, ha, if_true, ih'.2]

theorem mentionDigits_some {rest' : List Char} {r : String}
    (h : mentionDigits rest' = some r) :
    r.data ≠ [] ∧ (∀ x ∈ r.data, Char.isDigit x = true) ∧
      rest' = r.data ++ ['>'] := by
  unfold mentionDigits at h
  split_ifs at h with hcond
  · obtain ⟨h1, h2⟩ := hcond
    rw [Option.some.injEq] at h
    have hr : r.data = rest'.takeWhile Char.isDigit := by rw [← h]
    refine ⟨by rw [hr]; exact h1, ?_, ?_⟩
    · intro x hx
      rw [hr] at hx
      have hall := List.all_takeWhile (p := Char.isDigit) (l := rest')
      rw [List.all_eq_true] at hall
      exact hall x hx
    · rw [hr, ← h2, List.takeWhile_append_dropWhile]

theorem mentionDigits_of_digits (r : String) (hne : r.data ≠ [])
    (hdig : ∀ x ∈ r.data, Char.isDigit x = true) :
    mentionDigits (r.data ++ ['>']) = some r := by
  have h := takeWhile_all_append (p := Char.isDigit) '>' [] (by decide) r.data hdig
  unfold mentionDigits
  rw [h.1, h.2]
  rw [if_pos ⟨hne, rfl⟩]

theorem matchMentionId_some {l : List Char} {r : String}
    (h : matchMentionId l = some r) :
    r.data ≠ [] ∧ (∀ x ∈ r.data, Char.isDigit x = true) ∧
      (l = '<' :: '@' :: (r.data ++ ['>']) ∨
        l = '<' :: '@' :: '!' :: (r.data ++ ['>'])) := by
  match l with
  | [] => exact absurd h (by simp [matchMentionId])
  | [c] => exact absurd h (by simp [matchMentionId])
  | c1 :: c2 :: rest =>
    rw [matchMentionId_cons] at h
    by_cases hc : c1 = '<' ∧ c2 = '@'
    · rw [if_pos hc] at h
      obtain ⟨rfl, rfl⟩ := hc
      by_cases hb : rest.head? = some '!'
      · rw [if_pos hb] at h
        obtain ⟨hne, hdig, htail⟩ := mentionDigits_some h
        refine ⟨hne, hdig, Or.inr ?_⟩
        cases rest with
        | nil => simp at hb
        | cons d t =>
          simp only [List.head?_cons, Option.some.injEq] at hb
          subst hb
          simp only [List.tail_cons] at htail
          rw [htail]
      · rw [if_neg hb] at h
        obtain ⟨hne, hdig, htail⟩ := mentionDigits_some h
        exact ⟨hne, hdig, Or.inl (by rw [htail])⟩
    · rw [if_neg hc] at h
      exact absurd h (by simp)

/-- C10: `ExtractUserId` returns the digit string exactly when the whole
input is the mention form `<@` + optional `!` + one or more digits + `>`;
for every other input — `null`/`undefined` (modelled as `none`), the
empty string (falsy, caught by the `!mention` guard), or any string not
entirely of that shape — it returns `null`. -/
theorem extractUserId_spec (m : Option String) (r : String) :
    ExtractUserId m = some r ↔
      r ≠ "" ∧ r.data.all Char.isDigit = true ∧
        (m = some ("<@" ++ r ++ ">") ∨ m = some ("<@!" ++ r ++ ">")) := by
  have hdata_ne : ∀ s : String, s.data ≠ [] → s ≠ "" := by
    intro s hs heq
    rw [heq] at hs
    exact hs rfl
  constructor
  · intro h
    match m with
    | none => exact absurd h (by rw [extractUserId_none]; simp)
    | some mention =>
      rw [extractUserId_some] at h
      by_cases hemp : mention = ""
      · rw [if_pos hemp] at h
        exact absurd h (by simp)
      · rw [if_neg hemp] at h
        obtain ⟨hne, hdig, hshape⟩ := matchMentionId_some h
        refine ⟨hdata_ne r hne, List.all_eq_true.mpr hdig, ?_⟩
        rcases hshape with hl | hl
        · left
          congr 1
          apply String.ext
          rw [String.data_append, String.data_append, hl]
          rfl
        · right
          congr 1
          apply String.ext
          rw [String.data_append, String.data_append, hl]
          rfl
  · rintro ⟨hne, hdig, hm | hm⟩ <;> subst hm
    · have hne' : r.data ≠ [] := by
        intro hd
        exact hne (String.ext hd)
      have hdig' := List.all_eq_true.mp hdig
      have hdata : ("<@" ++ r ++ ">").data = '<' :: '@' :: (r.data ++ ['>']) := by
        rw [String.data_append, String.data_append]
        show (['<', '@'] ++ r.data) ++ ['>'] = _
        simp
      rw [extractUserId_some,
        if_neg (hdata_ne _ (by rw [hdata]; simp)), hdata, matchMentionId_cons,
        if_pos ⟨rfl, rfl⟩]
      have hb : ¬((r.data ++ ['>']).head? = some '!') := by
        cases hcases : r.data with
        | nil => exact absurd hcases hne'
        | cons d ds =>
          have hdd : Char.isDigit d = true := hdig' d (by rw [hcases]; simp)
          simp only [List.cons_append, List.head?_cons, Option.some.injEq]
          intro hcon
          subst hcon
          exact absurd hdd (by decide)
      rw [if_neg hb]
      exact mentionDigits_of_digits r hne' hdig'
    · have hne' : r.data ≠ [] := by
        intro hd
        exact hne (String.ext hd)
      have hdig' := List.all_eq_true.mp hdig
      have hdata : ("<@!" ++ r ++ ">").data =
          '<' :: '@' :: '!' :: (r.data ++ ['>']) := by
        rw [String.data_append, String.data_append]
        show (['<', '@', '!'] ++ r.data) ++ ['>'] = _
        simp
      rw [extractUserId_some,
        if_neg (hdata_ne _ (by rw [hdata]; simp)), hdata, matchMentionId_cons,
        if_pos ⟨rfl, rfl⟩]
      rw [if_pos (by simp)]
      exact mentionDigits_of_digits r hne' hdig'

/-! ## The per-session transcription pipeline of the `Handler` class
(`src/unnamed/part_000`).

The process is a single-threaded event loop: execution only interleaves
at `await` suspension points.  The model therefore advances an explicit
state record by atomic events:

* `HandlerEvent.enqueue job` — an utterance finished and
  `Handler.enqueueTranscription(job)` runs (synchronously through
  `dequeueTranscription` up to its first `await`);
* `HandlerEvent.complete outcome` — the awaited external transcription
  call of the in-flight job resolves with `outcome`, and the rest of
  `dequeueTranscription` runs (append on success, then the `finally`
  block releases the lock and synchronously re-enters
  `dequeueTranscription` up to its next `await`). -/

/-- One `{role, content}` chat-log entry. -/
structure ChatMessage where
  role : String
  content : String
deriving DecidableEq, Repr

/-- The `{ userId, buffer }` object that `Handler.startVoiceReceiver`
enqueues (part_000 line 186); the WAV buffer is a byte list. -/
structure HandlerJob where
  userId : String
  buffer : List Nat
deriving DecidableEq, Repr

/-- Outcome of the external Whisper `fetch` inside `TranscribeWavBuffer`:
the request either fails (network error or non-ok status) or yields the
raw `result.text`. -/
inductive TranscribeOutcome where
  | error : TranscribeOutcome
  | ok : String → TranscribeOutcome
deriving DecidableEq, Repr

/-- Function `TranscribeWavBuffer` (part_001 lines 209-242): on success it returns
the raw text cleaned with `CleanTranscription`; every error is caught
internally and yields the empty string. -/
def TranscribeWavBuffer : TranscribeOutcome → String
  | .error => ""
  | .ok raw => CleanTranscription raw

/-- Method `Handler.checkTokenLimit` (part_000 lines 439-452) returns whether
the 75%-full warning message was sent: the warning fires whenever
`MAX_TOKEN_LIMIT * 0.75 <= tokenCount <= MAX_TOKEN_LIMIT * 0.85`.  Both
products are exact in double arithmetic (30000 and 34000) and the count
is an integer, so the comparison is embedded over `Nat`.  The
`>= 0.85 * MAX_TOKEN_LIMIT` branch is an empty stub (a comment) in the
source and sends nothing. -/
def checkTokenLimit (tokenCount : Nat) : Bool :=
  MAX_TOKEN_LIMIT * 75 / 100 ≤ tokenCount &&
    tokenCount ≤ MAX_TOKEN_LIMIT * 85 / 100

/-- The mutable fields of one `Handler` instance (part_000 lines 45-90)
that the claims touch, plus bookkeeping visible only to the proofs:
`warningsSent` counts the messages sent by `checkTokenLimit`;
`inflight` holds the jobs whose external transcription call is currently
awaited; `enqueuedJobs`, `startedJobs` and `completedJobs` are ghost
histories of every job ever enqueued, started and finished (with the
transcription text it produced), in order.  No modelled operation reads
the ghost fields. -/
structure HandlerState where
  transcriptionQueue : List HandlerJob
  transcriptionWorking : Bool
  chatLog : List ChatMessage
  tokenCount : Nat
  activePlayers : List (String × String)
  activeVoiceStreams : List String
  warningsSent : Nat
  inflight : List HandlerJob
  enqueuedJobs : List HandlerJob
  startedJobs : List HandlerJob
  completedJobs : List (HandlerJob × String)
deriving DecidableEq, Repr

/-- Lookup `this.activePlayers.get(userId)`: a missing entry is `undefined`,
which the template literal stringifies as `"undefined"`. -/
def lookupPlayer (players : List (String × String)) (userId : String) : String :=
  match players.find? (fun p => p.1 == userId) with
  | some p => p.2
  | none => "undefined"

/-- The wrapped transcript line `<player>transcription</player>`
(part_000 lines 150-151). -/
def transcriptContent (players : List (String × String)) (userId : String)
    (transcription : String) : String :=
  let player := lookupPlayer players userId
  "<" ++ player ++ ">" ++ transcription ++ "</" ++ player ++ ">"

/-- Lines 153-156 of part_000: push the content as a user message, add
its token estimate to `tokenCount`, and run `checkTokenLimit` (counted
in `warningsSent`). -/
def appendTranscript (s : HandlerState) (content : String) : HandlerState :=
  { s with
    chatLog := s.chatLog ++ [⟨USER, content⟩]
    tokenCount := s.tokenCount + EstimateTokens content
    warningsSent := s.warningsSent +
      (if checkTokenLimit (s.tokenCount + EstimateTokens content) then 1 else 0) }

/-- Method `Handler.dequeueTranscription` up to its first `await` (part_000
lines 139-145): return if the lock is held or the queue is empty;
otherwise shift the head job, take the lock, and start the job's
external transcription call. -/
def dequeueTranscriptionStart (s : HandlerState) : HandlerState :=
  if s.transcriptionWorking then s
  else
    match s.transcriptionQueue with
    | [] => s
    | job :: rest =>
      { s with
        transcriptionQueue := rest
        transcriptionWorking := true
        inflight := s.inflight ++ [job]
        startedJobs := s.startedJobs ++ [job] }

/-- Method `Handler.enqueueTranscription` (part_000 lines 122-128): push the
job, then start the worker if it is idle. -/
def enqueueTranscription (s : HandlerState) (job : HandlerJob) : HandlerState :=
  let s1 := { s with
    transcriptionQueue := s.transcriptionQueue ++ [job]
    enqueuedJobs := s.enqueuedJobs ++ [job] }
  if s1.transcriptionWorking then s1 else dequeueTranscriptionStart s1

/-- The rest of `Handler.dequeueTranscription` once the awaited
transcription of the in-flight job resolves (part_000 lines 148-164):
if the (cleaned) text is non-empty, append the wrapped transcript line,
update the token count and run the token check; in every case the
`finally` block releases the lock and synchronously re-enters
`dequeueTranscription`, which starts the next queued job if any. -/
def dequeueTranscriptionFinish (s : HandlerState)
    (outcome : TranscribeOutcome) : HandlerState :=
  match s.inflight with
  | [] => s
  | job :: _ =>
    let transcription := TranscribeWavBuffer outcome
    let s1 :=
      if transcription.length > 0 then
        appendTranscript s (transcriptContent s.activePlayers job.userId transcription)
      else s
    dequeueTranscriptionStart
      { s1 with
        transcriptionWorking := false
        inflight := []
        completedJobs := s1.completedJobs ++ [(job, transcription)] }

/-- The atomic events of the session event loop. -/
inductive HandlerEvent where
  | enqueue : HandlerJob → HandlerEvent
  | complete : TranscribeOutcome → HandlerEvent
deriving DecidableEq, Repr

def handlerStep (s : HandlerState) : HandlerEvent → HandlerState
  | .enqueue job => enqueueTranscription s job
  | .complete outcome => dequeueTranscriptionFinish s outcome

def runHandler (s : HandlerState) (events : List HandlerEvent) : HandlerState :=
  events.foldl handlerStep s

/-- A freshly constructed `Handler` (part_000 constructor lines 97-113):
empty queue, idle worker, zero token count, chat log seeded with the one
system persona prompt. -/
def initHandler (players : List (String × String)) : HandlerState :=
  { transcriptionQueue := []
    transcriptionWorking := false
    chatLog := [⟨SYSTEM, INITIAL_PROMPT_H⟩]
    tokenCount := 0
    activePlayers := players
    activeVoiceStreams := []
    warningsSent := 0
    inflight := []
    enqueuedJobs := []
    startedJobs := []
    completedJobs := [] }

/-! ## The queue invariant (C1) -/

/-- The chat-log line a finished job contributes: the wrapped transcript
as a user message when the cleaned text is non-empty, nothing otherwise. -/
def transcriptLine (players : List (String × String))
    (p : HandlerJob × String) : Option ChatMessage :=
  if p.2.length > 0 then
    some ⟨USER, transcriptContent players p.1.userId p.2⟩
  else
    none

/-- Inductive invariant of the transcription queue: at most one job's
transcription call is in flight; the lock is held exactly while a call
is in flight; jobs start in enqueue order (the enqueue history splits
into the start history followed by the pending queue, and the start
history into the finished jobs followed by the in-flight job); and the
chat log is the initial system prompt followed by exactly the lines of
the finished jobs in completion order. -/
def QueueInvariant (players : List (String × String)) (s : HandlerState) : Prop :=
  s.inflight.length ≤ 1 ∧
  s.transcriptionWorking = !s.inflight.isEmpty ∧
  s.activePlayers = players ∧
  s.enqueuedJobs = s.startedJobs ++ s.transcriptionQueue ∧
  s.startedJobs = s.completedJobs.map Prod.fst ++ s.inflight ∧
  s.chatLog =
    ⟨SYSTEM, INITIAL_PROMPT_H⟩ :: s.completedJobs.filterMap (transcriptLine players)

theorem queueInvariant_start {players : List (String × String)}
    {s : HandlerState} (h : QueueInvariant players s) :
    QueueInvariant players (dequeueTranscriptionStart s) := by
  obtain ⟨h1, h2, h3, h4, h5, h6⟩ := h
  unfold dequeueTranscriptionStart
  by_cases hw : s.transcriptionWorking = true
  · rw [if_pos hw]
    exact ⟨h1, h2, h3, h4, h5, h6⟩
  · rw [if_neg hw]
    have hinf : s.inflight = [] := by
      cases hi : s.inflight with
      | nil => rfl
      | cons a t =>
        rw [hi] at h2
        simp only [List.isEmpty_cons, Bool.not_false] at h2
        exact absurd h2 hw
    cases hq : s.transcriptionQueue with
    | nil => exact ⟨h1, h2, h3, h4, h5, h6⟩
    | cons job rest =>
      refine ⟨?_, ?_, h3, ?_, ?_, h6⟩
      · simp [hinf]
      · simp [hinf]
      · rw [h4, hq, hinf]
        simp
      · rw [h5, hinf]
        simp

theorem queueInvariant_enqueue {players : List (String × String)}
    {s : HandlerState} (h : QueueInvariant players s) (job : HandlerJob) :
    QueueInvariant players (enqueueTranscription s job) := by
  obtain ⟨h1, h2, h3, h4, h5, h6⟩ := h
  have hmid : QueueInvariant players
      { s with
        transcriptionQueue := s.transcriptionQueue ++ [job]
        enqueuedJobs := s.enqueuedJobs ++ [job] } := by
    refine ⟨h1, h2, h3, ?_, h5, h6⟩
    simp only [h4, List.append_assoc]
  unfold enqueueTranscription
  by_cases hw : s.transcriptionWorking = true
  · rw [if_pos hw]
    exact hmid
  · rw [if_neg hw]
    exact queueInvariant_start hmid

theorem queueInvariant_finish {players : List (String × String)}
    {s : HandlerState} (h : QueueInvariant players s)
    (outcome : TranscribeOutcome) :
    QueueInvariant players (dequeueTranscriptionFinish s outcome) := by
  obtain ⟨h1, h2, h3, h4, h5, h6⟩ := h
  cases hi : s.inflight with
  | nil =>
    have heq : dequeueTranscriptionFinish s outcome = s := by
      unfold dequeueTranscriptionFinish
      rw [hi]
    rw [heq]
    exact ⟨h1, h2, h3, h4, h5, h6⟩
  | cons job tl =>
    have htl : tl = [] := by
      rw [hi] at h1
      simp only [List.length_cons] at h1
      have := Nat.le_of_succ_le_succ h1
      exact List.eq_nil_of_length_eq_zero (Nat.le_zero.mp this)
    subst htl
    rw [hi] at h5
    by_cases hT : (TranscribeWavBuffer outcome).length > 0
    · have heq : dequeueTranscriptionFinish s outcome =
          dequeueTranscriptionStart
            { appendTranscript s
                (transcriptContent s.activePlayers job.userId
                  (TranscribeWavBuffer outcome)) with
              transcriptionWorking := false
              inflight := []
              completedJobs :=
                s.completedJobs ++ [(job, TranscribeWavBuffer outcome)] } := by
        unfold dequeueTranscriptionFinish
        rw [hi]
        simp only [if_pos hT]
        rfl
      rw [heq]
      apply queueInvariant_start
      refine ⟨by simp, by simp, by simp [appendTranscript]; exact h3, ?_, ?_, ?_⟩
      · show s.enqueuedJobs = s.startedJobs ++ s.transcriptionQueue
        exact h4
      · show s.startedJobs =
          (s.completedJobs ++ [(job, TranscribeWavBuffer outcome)]).map Prod.fst ++ []
        rw [List.map_append, List.append_nil]
        exact h5
      · show s.chatLog ++
            [⟨USER, transcriptContent s.activePlayers job.userId
              (TranscribeWavBuffer outcome)⟩] =
          ⟨SYSTEM, INITIAL_PROMPT_H⟩ ::
            ((s.completedJobs ++ [(job, TranscribeWavBuffer outcome)]).filterMap
              (transcriptLine players))
        rw [List.filterMap_append, h6, h3]
        simp [transcriptLine, hT]
    · have heq : dequeueTranscriptionFinish s outcome =
          dequeueTranscriptionStart
            { s with
              transcriptionWorking := false
              inflight := []
              completedJobs :=
                s.completedJobs ++ [(job, TranscribeWavBuffer outcome)] } := by
        unfold dequeueTranscriptionFinish
        rw [hi]
        simp only [if_neg hT]
      rw [heq]
      apply queueInvariant_start
      refine ⟨by simp, by simp, h3, h4, ?_, ?_⟩
      · show s.startedJobs =
          (s.completedJobs ++ [(job, TranscribeWavBuffer outcome)]).map Prod.fst ++ []
        rw [List.map_append, List.append_nil]
        exact h5
      · show s.chatLog =
          ⟨SYSTEM, INITIAL_PROMPT_H⟩ ::
            ((s.completedJobs ++ [(job, TranscribeWavBuffer outcome)]).filterMap
              (transcriptLine players))
        rw [List.filterMap_append, h6]
        simp [transcriptLine, hT]

theorem queueInvariant_step {players : List (String × String)}
    {s : HandlerState} (h : QueueInvariant players s) (e : HandlerEvent) :
    QueueInvariant players (handlerStep s e) := by
  cases e with
  | enqueue job => exact queueInvariant_enqueue h job
  | complete outcome => exact queueInvariant_finish h outcome

theorem queueInvariant_run {players : List (String × String)} :
    ∀ (events : List HandlerEvent) (s : HandlerState),
      QueueInvariant players s → QueueInvariant players (runHandler s events) := by
  intro events
  induction events with
  | nil => intro s h; exact h
  | cons e es ih => intro s h; exact ih (handlerStep s e) (queueInvariant_step h e)

theorem queueInvariant_init (players : List (String × String)) :
    QueueInvariant players (initHandler players) := by
  refine ⟨?_, ?_, rfl, rfl, rfl, rfl⟩ <;> simp [initHandler]

/-- C1: the transcription queue is single-concurrency and
order-preserving.  For every sequence of event-loop events from a fresh
`Handler`: at most one transcription call is ever in flight; the jobs
finished so far are a prefix of the jobs enqueued, in enqueue order; and
the chat log is the system prompt followed by exactly the transcript
lines of the successfully finished jobs in that same order (failed or
empty jobs contribute no line), so transcript lines appear in enqueue
order regardless of per-job transcription latency. -/
theorem transcription_queue_serial_and_ordered
    (players : List (String × String)) (events : List HandlerEvent) :
    (runHandler (initHandler players) events).inflight.length ≤ 1 ∧
    (∃ pending,
      (runHandler (initHandler players) events).enqueuedJobs =
        (runHandler (initHandler players) events).completedJobs.map Prod.fst ++
          pending) ∧
    (runHandler (initHandler players) events).chatLog =
      ⟨SYSTEM, INITIAL_PROMPT_H⟩ ::
        (runHandler (initHandler players) events).completedJobs.filterMap
          (transcriptLine players) := by
  obtain ⟨h1, _, _, h4, h5, h6⟩ :=
    queueInvariant_run events (initHandler players) (queueInvariant_init players)
  refine ⟨h1, ?_, h6⟩
  refine ⟨(runHandler (initHandler players) events).inflight ++
    (runHandler (initHandler players) events).transcriptionQueue, ?_⟩
  rw [h4, h5, List.append_assoc]

/-! ## C7: failed or empty transcription jobs are dropped without
side effects. -/

/-- C7: when the in-flight job's transcription errors or cleans to the
empty string, finishing it appends nothing to the chat log, leaves the
token count (and the warning counter) unchanged, consumes the job (it is
recorded as completed with empty text, never re-enqueued), removes it
from the queue for good, and immediately starts the next queued job if
one is pending. -/
theorem failed_job_dropped (s : HandlerState) (outcome : TranscribeOutcome)
    (job : HandlerJob) (hin : s.inflight = [job])
    (hempty : TranscribeWavBuffer outcome = "") :
    (dequeueTranscriptionFinish s outcome).chatLog = s.chatLog ∧
    (dequeueTranscriptionFinish s outcome).tokenCount = s.tokenCount ∧
    (dequeueTranscriptionFinish s outcome).warningsSent = s.warningsSent ∧
    (dequeueTranscriptionFinish s outcome).completedJobs =
      s.completedJobs ++ [(job, "")] ∧
    (dequeueTranscriptionFinish s outcome).enqueuedJobs = s.enqueuedJobs ∧
    (dequeueTranscriptionFinish s outcome).transcriptionQueue =
      s.transcriptionQueue.drop 1 ∧
    (dequeueTranscriptionFinish s outcome).inflight =
      s.transcriptionQueue.take 1 := by
  have heq : dequeueTranscriptionFinish s outcome =
      dequeueTranscriptionStart
        { s with
          transcriptionWorking := false
          inflight := []
          completedJobs := s.completedJobs ++ [(job, "")] } := by
    unfold dequeueTranscriptionFinish
    rw [hin, hempty]
    simp
  rw [heq]
  unfold dequeueTranscriptionStart
  cases hq : s.transcriptionQueue with
  | nil => simp
  | cons q1 qr => simp

/-- Witness for C7 at a concrete state: the worker holds job `u1` whose
transcription call fails while job `u2` waits in the queue. -/
theorem failed_job_dropped_witness :
    (dequeueTranscriptionFinish
      { transcriptionQueue := [⟨"u2", [1]⟩]
        transcriptionWorking := true
        chatLog := [⟨SYSTEM, INITIAL_PROMPT_H⟩]
        tokenCount := 0
        activePlayers := [("u1", "P1"), ("u2", "P2")]
        activeVoiceStreams := []
        warningsSent := 0
        inflight := [⟨"u1", [0]⟩]
        enqueuedJobs := [⟨"u1", [0]⟩, ⟨"u2", [1]⟩]
        startedJobs := [⟨"u1", [0]⟩]
        completedJobs := [] } TranscribeOutcome.error).chatLog =
      [⟨SYSTEM, INITIAL_PROMPT_H⟩] ∧
    (dequeueTranscriptionFinish
      { transcriptionQueue := [⟨"u2", [1]⟩]
        transcriptionWorking := true
        chatLog := [⟨SYSTEM, INITIAL_PROMPT_H⟩]
        tokenCount := 0
        activePlayers := [("u1", "P1"), ("u2", "P2")]
        activeVoiceStreams := []
        warningsSent := 0
        inflight := [⟨"u1", [0]⟩]
        enqueuedJobs := [⟨"u1", [0]⟩, ⟨"u2", [1]⟩]
        startedJobs := [⟨"u1", [0]⟩]
        completedJobs := [] } TranscribeOutcome.error).tokenCount = 0 := by
  have h := failed_job_dropped
    { transcriptionQueue := [⟨"u2", [1]⟩]
      transcriptionWorking := true
      chatLog := [⟨SYSTEM, INITIAL_PROMPT_H⟩]
      tokenCount := 0
      activePlayers := [("u1", "P1"), ("u2", "P2")]
      activeVoiceStreams := []
      warningsSent := 0
      inflight := [⟨"u1", [0]⟩]
      enqueuedJobs := [⟨"u1", [0]⟩, ⟨"u2", [1]⟩]
      startedJobs := [⟨"u1", [0]⟩]
      completedJobs := [] } TranscribeOutcome.error ⟨"u1", [0]⟩ rfl rfl
  exact ⟨h.1, h.2.1⟩

/-! ## C2: token accounting across appends and the pause epoch reset. -/

/-- Function `EstimateTokens` always computes the ceiling of `length / 4` (the
`!text` guard only short-circuits the empty string, whose ceiling is
also 0). -/
theorem estimateTokens_eq_ceil (content : String) :
    EstimateTokens content = (content.length + 3) / 4 := by
  by_cases hc : content = ""
  · subst hc
    rfl
  · rw [EstimateTokens, if_neg hc]

/-- One entry of the `currentSessions` map (`src/index.js` lines
264-271), restricted to the fields the claims touch. -/
structure Session where
  channelId : String
  tokenCount : Nat
  players : List String
  chatLog : List ChatMessage
deriving DecidableEq, Repr

/-- The session-state mutation performed by the pause command after the
summary is produced (`src/index.js` lines 411-419): the chat log is
reset to `[system prompt, assistant summary]`.  No other session field
is written — in particular no statement of the handler (nor of
`Handler.pause`, part_000 lines 279-310) ever assigns `tokenCount`. -/
def pauseSession (s : Session) (markdownSummary : String) : Session :=
  { s with chatLog := [⟨SYSTEM, INITIAL_PROMPT⟩, ⟨ASSISTANT, markdownSummary⟩] }

/-- C2 (code bug): within an epoch, appending a transcript message of
length L adds exactly ceil(L/4) to the token count; but the pause epoch
reset never writes `tokenCount`: the count keeps its pre-pause value
instead of being set to the new summary message's estimate.  Concretely,
pausing a session whose count is 31000 with the summary
`"short summary"` (estimate 4) leaves the count at 31000. -/
theorem pause_keeps_stale_token_count :
    (∀ (s : HandlerState) (content : String),
      (appendTranscript s content).tokenCount =
        s.tokenCount + (content.length + 3) / 4) ∧
    (∀ (s : Session) (summary : String),
      (pauseSession s summary).tokenCount = s.tokenCount ∧
      (pauseSession s summary).chatLog =
        [⟨SYSTEM, INITIAL_PROMPT⟩, ⟨ASSISTANT, summary⟩]) ∧
    (pauseSession ⟨"chan", 31000, [], [⟨SYSTEM, INITIAL_PROMPT⟩]⟩
      "short summary").tokenCount = 31000 ∧
    EstimateTokens "short summary" = 4 := by
  refine ⟨?_, fun s summary => ⟨rfl, rfl⟩, rfl, by decide⟩
  intro s content
  show s.tokenCount + EstimateTokens content = s.tokenCount + (content.length + 3) / 4
  rw [estimateTokens_eq_ceil]

/-! ## C5: the 75%-85% warning band has no one-shot flag. -/

/-- C5 (amended): `checkTokenLimit` keeps no record of having warned:
every chat-log append whose resulting token count lies in the band
`[0.75 * MAX_TOKEN_LIMIT, 0.85 * MAX_TOKEN_LIMIT]` sends the warning
message again, so a session sitting inside the band emits one warning
per append rather than one per band entry. -/
theorem warning_on_every_append_in_band (s : HandlerState) (content : String) :
    (appendTranscript s content).warningsSent =
      s.warningsSent +
        (if checkTokenLimit (s.tokenCount + EstimateTokens content) then 1
          else 0) ∧
    (appendTranscript s content).tokenCount =
      s.tokenCount + EstimateTokens content ∧
    (appendTranscript s content).chatLog = s.chatLog ++ [⟨USER, content⟩] :=
  ⟨rfl, rfl, rfl⟩

theorem appendTranscript_tokenCount (s : HandlerState) (content : String) :
    (appendTranscript s content).tokenCount =
      s.tokenCount + EstimateTokens content := rfl

theorem appendTranscript_warningsSent (s : HandlerState) (content : String) :
    (appendTranscript s content).warningsSent =
      s.warningsSent +
        (if checkTokenLimit (s.tokenCount + EstimateTokens content) then 1
          else 0) := rfl

theorem initHandler_tokenCount (players : List (String × String)) :
    (initHandler players).tokenCount = 0 := rfl

theorem initHandler_warningsSent (players : List (String × String)) :
    (initHandler players).warningsSent = 0 := rfl

/-- A 120000-character transcript content whose token estimate, 30000,
is exactly 75% of `MAX_TOKEN_LIMIT` — the lower edge of the warning
band. -/
def bigText : String := ⟨List.replicate 120000 'a'⟩

theorem bigText_length : bigText.length = 120000 := by
  show (String.mk (List.replicate 120000 'a')).length = 120000
  rw [String.length_mk, List.length_replicate]

theorem bigText_ne_empty : bigText ≠ "" := by
  intro hcon
  have hd := congrArg String.length hcon
  rw [bigText_length, String.length_empty] at hd
  exact absurd hd (by decide)

theorem bigText_estimate : EstimateTokens bigText = 30000 := by
  rw [EstimateTokens, if_neg bigText_ne_empty, bigText_length]

/-- C5 (counterexample): from a fresh session, appending a transcript of
120000 characters brings the count to 30000 — entering the warning band
— and sends one warning; appending one more short transcript leaves the
count at 30002, still inside the band and below 85%, and sends a second
warning.  This refutes the claim that exactly one warning is emitted
while the count stays in the band. -/
theorem warning_duplicated_counterexample :
    checkTokenLimit
        (appendTranscript (initHandler [("u1", "P1")]) bigText).tokenCount =
      true ∧
    (appendTranscript (initHandler [("u1", "P1")]) bigText).warningsSent = 1 ∧
    checkTokenLimit
        (appendTranscript (appendTranscript (initHandler [("u1", "P1")]) bigText)
          "hello").tokenCount = true ∧
    (appendTranscript (appendTranscript (initHandler [("u1", "P1")]) bigText)
      "hello").warningsSent = 2 := by
  have ht1 : (appendTranscript (initHandler [("u1", "P1")]) bigText).tokenCount
      = 30000 := by
    rw [appendTranscript_tokenCount, initHandler_tokenCount, bigText_estimate]
  have hw1 : (appendTranscript (initHandler [("u1", "P1")]) bigText).warningsSent
      = 1 := by
    rw [appendTranscript_warningsSent, initHandler_warningsSent,
      initHandler_tokenCount, bigText_estimate]
    decide
  have ht2 : (appendTranscript
      (appendTranscript (initHandler [("u1", "P1")]) bigText)
      "hello").tokenCount = 30002 := by
    rw [appendTranscript_tokenCount, ht1]
    decide
  have hw2 : (appendTranscript
      (appendTranscript (initHandler [("u1", "P1")]) bigText)
      "hello").warningsSent = 2 := by
    rw [appendTranscript_warningsSent, hw1, ht1]
    decide
  refine ⟨?_, hw1, ?_, hw2⟩
  · rw [ht1]
    decide
  · rw [ht2]
    decide

/-! ## C3: the drain wait of `pause()`/`stop()`.

`Handler.finishTranscriptionQueue` (part_000 lines 461-465) —
`while (this.transcriptionWorking || this.transcriptionQueue.length > 0)
await sleep(1000)` — and the identical inline loops of the stop and
pause command handlers (`src/index.js` lines 280-282 and 390-392) poll
the queue state once per second.  `trace i` is the queue state observed
at the i-th poll; the event loop can run enqueues/completions between
polls, which is why consecutive observations are unconstrained.  The
fuel bounds the number of polls modelled: the source loop has no
timeout, so a never-draining queue makes the wait spin forever (`none`
for every fuel). -/

/-- The part of the queue state the drain loop reads. -/
structure DrainView where
  transcriptionWorking : Bool
  transcriptionQueue : List HandlerJob
deriving DecidableEq, Repr

/-- The loop condition
`transcriptionWorking || transcriptionQueue.length > 0`. -/
def drainBusy (v : DrainView) : Bool :=
  v.transcriptionWorking || decide (v.transcriptionQueue.length > 0)

/-- The polling loop: starting at poll index `i`, return the index of
the first poll at which the condition is false, within `fuel` polls. -/
def finishTranscriptionQueue (trace : Nat → DrainView) :
    Nat → Nat → Option Nat
  | 0, _ => none
  | fuel + 1, i =>
    if drainBusy (trace i) then finishTranscriptionQueue trace fuel (i + 1)
    else some i

theorem finishTranscriptionQueue_succ (trace : Nat → DrainView)
    (fuel i : Nat) :
    finishTranscriptionQueue trace (fuel + 1) i =
      (if drainBusy (trace i) then finishTranscriptionQueue trace fuel (i + 1)
        else some i) := rfl

/-- C3: the drain wait returns only in a state with an empty queue and
an idle worker, and at every earlier poll it kept waiting because a job
was queued or in flight — so `pause()`/`stop()` never proceed to
summarization while transcription work remains. -/
theorem finish_queue_drain_invariant (trace : Nat → DrainView) :
    ∀ fuel i k, finishTranscriptionQueue trace fuel i = some k →
      (trace k).transcriptionWorking = false ∧
      (trace k).transcriptionQueue = [] ∧
      ∀ j, i ≤ j → j < k → drainBusy (trace j) = true := by
  intro fuel
  induction fuel with
  | zero =>
    intro i k h
    exact absurd h (by simp [finishTranscriptionQueue])
  | succ n ih =>
    intro i k h
    rw [finishTranscriptionQueue_succ] at h
    by_cases hb : drainBusy (trace i) = true
    · rw [if_pos hb] at h
      obtain ⟨h1, h2, h3⟩ := ih (i + 1) k h
      refine ⟨h1, h2, ?_⟩
      intro j hij hjk
      by_cases hji : j = i
      · subst hji
        exact hb
      · exact h3 j (by omega) hjk
    · rw [if_neg hb] at h
      have hk : k = i := by
        cases h
        rfl
      subst hk
      have hb' : drainBusy (trace k) = false := by
        cases hx : drainBusy (trace k) with
        | false => rfl
        | true => exact absurd hx hb
      rw [drainBusy, Bool.or_eq_false_iff] at hb'
      obtain ⟨hw, hq⟩ := hb'
      refine ⟨hw, ?_, ?_⟩
      · rw [decide_eq_false_iff_not] at hq
        have : (trace k).transcriptionQueue.length = 0 := by omega
        exact List.eq_nil_of_length_eq_zero this
      · intro j hij hjk
        omega

/-- A concrete queue-state trace: busy at poll 0 (worker active, one
job queued), drained from poll 1 on. -/
def drainTraceExample : Nat → DrainView :=
  fun n => if n = 0 then ⟨true, [⟨"u1", [0]⟩]⟩ else ⟨false, []⟩

/-- Witness for C3: on `drainTraceExample` the wait returns at poll 1,
where the queue is empty and the worker idle, having waited at poll 0. -/
theorem finish_queue_drain_invariant_witness :
    (drainTraceExample 1).transcriptionWorking = false ∧
    (drainTraceExample 1).transcriptionQueue = [] ∧
    ∀ j, 0 ≤ j → j < 1 → drainBusy (drainTraceExample j) = true :=
  finish_queue_drain_invariant drainTraceExample 5 0 1 rfl

/-! ## C6: the chat-log update at `stop()`.

The two implementations disagree here.  The stop command handler
(`src/index.js` lines 320-327) pushes the assistant summary and the
system reply prompt onto the existing chat log; `Handler.stop`
(part_000 lines 386-390) instead assigns a fresh three-element array,
discarding every message previously in the log. -/

/-- The chat-log update of the stop command handler (`src/index.js`
lines 320-327): push `{assistant, summary}` then `{system, REPLY_PROMPT}`
onto the existing log. -/
def stopChatLogIndexJs (chatLog : List ChatMessage)
    (markdownSummary : String) : List ChatMessage :=
  chatLog ++ [⟨ASSISTANT, markdownSummary⟩, ⟨SYSTEM, REPLY_PROMPT⟩]

/-- The chat-log update of `Handler.stop` (part_000 lines 386-390):
`this.chatLog = [{system, INITIAL_PROMPT}, {assistant, summary},
{system, REPLY_PROMPT}]` — the previous log is not read. -/
def stopChatLogHandler (_chatLog : List ChatMessage)
    (markdownSummary : String) : List ChatMessage :=
  [⟨SYSTEM, INITIAL_PROMPT_H⟩, ⟨ASSISTANT, markdownSummary⟩,
    ⟨SYSTEM, REPLY_PROMPT⟩]

/-- C6 (amended): at `stop()`, the `src/index.js` command handler
appends the pair `[assistant-summary, system-reply-prompt]` to the
existing chat log, preserving the messages already in it; the
`Handler.stop` path instead replaces the whole log with
`[system-prompt, assistant-summary, system-reply-prompt]`, discarding
the prior messages. -/
theorem stop_chat_log_update (chatLog : List ChatMessage)
    (markdownSummary : String) :
    stopChatLogIndexJs chatLog markdownSummary =
      chatLog ++ [⟨ASSISTANT, markdownSummary⟩, ⟨SYSTEM, REPLY_PROMPT⟩] ∧
    stopChatLogHandler chatLog markdownSummary =
      [⟨SYSTEM, INITIAL_PROMPT_H⟩, ⟨ASSISTANT, markdownSummary⟩,
        ⟨SYSTEM, REPLY_PROMPT⟩] :=
  ⟨rfl, rfl⟩

/-- C6 (counterexample): on a log holding one user transcript line,
`Handler.stop` does not append to the existing log — the user line is
gone from the result — refuting the claim that `stop()` preserves the
messages already in the log. -/
theorem stop_discards_log_counterexample :
    stopChatLogHandler
        [⟨SYSTEM, INITIAL_PROMPT_H⟩, ⟨USER, "<P1>hi there</P1>"⟩] "sum" ≠
      [⟨SYSTEM, INITIAL_PROMPT_H⟩, ⟨USER, "<P1>hi there</P1>"⟩] ++
        [⟨ASSISTANT, "sum"⟩, ⟨SYSTEM, REPLY_PROMPT⟩] ∧
    ChatMessage.mk USER "<P1>hi there</P1>" ∉
      stopChatLogHandler
        [⟨SYSTEM, INITIAL_PROMPT_H⟩, ⟨USER, "<P1>hi there</P1>"⟩] "sum" := by
  constructor
  · intro h
    have hlen := congrArg List.length h
    simp [stopChatLogHandler] at hlen
  · intro h
    simp only [stopChatLogHandler, List.mem_cons, List.not_mem_nil, or_false] at h
    rcases h with h | h | h <;>
      exact absurd (congrArg ChatMessage.role h) (by decide)

/-! ## The per-speaker capture pipeline (C4, C8).

`startVoiceReceiver` and `createVoiceListeningStream` (`src/index.js`
lines 57-138; the `Handler` methods at part_000 lines 173-252 are the
same logic except that the Handler's jobs carry no timestamps).  Each
event is one event-loop handler invocation:

* `speakingStart u t` — the receiver's speaking-start event at time `t`:
  ignored when the speaker already has an active stream or is not a
  registered member; otherwise the speaker is marked active and a
  subscription (opus → decoder → ffmpeg) is created whose closures
  capture `startedAt = t` and an empty `wavChunks` accumulator;
* `streamData u chunk` — the ffmpeg `data` handler: push the chunk;
* `streamEnd u t` — the ffmpeg `end` handler at time `t`, after the
  opus subscription auto-closed following `SILENCE_DURATION` ms of
  silence: concatenate the chunks, release the speaker's
  active-stream entry regardless of the buffer, and emit the
  `TranscriptionJob` with `endedAt = t - SILENCE_DURATION` exactly when
  the buffer is non-empty;
* `streamError u` — any stage's `error` handler: release the entry and
  destroy the subscription, emitting nothing. -/

/-- One entry of `allSessionsMembers` (`src/index.js` lines 48-55). -/
structure MemberData where
  nickname : String
  sessionId : String
deriving DecidableEq, Repr

/-- The `TranscriptionJob` typedef (`src/utils.js` lines 1-10);
timestamps are JavaScript millisecond epochs, modelled as `Int`. -/
structure TranscriptionJob where
  userId : String
  sessionId : String
  startedAt : Int
  endedAt : Int
  wavBuffer : List Nat
deriving DecidableEq, Repr

/-- One live capture pipeline: the per-stream state held by the
closures of `createVoiceListeningStream`. -/
structure StreamRec where
  userId : String
  sessionId : String
  startedAt : Int
  wavChunks : List (List Nat)
deriving DecidableEq, Repr

structure CaptureState where
  activeVoiceStreams : List String
  streams : List StreamRec
  members : List (String × MemberData)
  emitted : List TranscriptionJob
deriving DecidableEq, Repr

inductive CaptureEvent where
  | speakingStart : String → Int → CaptureEvent
  | streamData : String → List Nat → CaptureEvent
  | streamEnd : String → Int → CaptureEvent
  | streamError : String → CaptureEvent
deriving DecidableEq, Repr

def applyCapture (s : CaptureState) : CaptureEvent → CaptureState
  | .speakingStart u t =>
    if u ∈ s.activeVoiceStreams then s
    else
      match s.members.find? (fun p => p.1 == u) with
      | none => s
      | some m =>
        { s with
          activeVoiceStreams := s.activeVoiceStreams ++ [u]
          streams := s.streams ++ [⟨u, m.2.sessionId, t, []⟩] }
  | .streamData u chunk =>
    { s with
      streams := s.streams.map fun r =>
        if r.userId == u then { r with wavChunks := r.wavChunks ++ [chunk] }
        else r }
  | .streamEnd u t =>
    match s.streams.find? (fun r => r.userId == u) with
    | none => s
    | some r =>
      let buffer := r.wavChunks.flatten
      { s with
        activeVoiceStreams := s.activeVoiceStreams.erase u
        streams := s.streams.eraseP (fun x => x.userId == u)
        emitted :=
          if buffer ≠ [] then
            s.emitted ++ [⟨u, r.sessionId, r.startedAt,
              t - (SILENCE_DURATION : Int), buffer⟩]
          else s.emitted }
  | .streamError u =>
    { s with
      activeVoiceStreams := s.activeVoiceStreams.erase u
      streams := s.streams.eraseP (fun x => x.userId == u) }

/-- Run the capture pipeline from session start (`activeVoiceStreams`
and all stream state empty, member table populated). -/
def runCapture (members : List (String × MemberData))
    (events : List CaptureEvent) : CaptureState :=
  events.foldl applyCapture ⟨[], [], members, []⟩

/-- Capture invariant: the live streams correspond one-to-one, in
order, to the entries of `activeVoiceStreams`, and that list has no
duplicate speaker. -/
def CaptureInvariant (s : CaptureState) : Prop :=
  s.streams.map StreamRec.userId = s.activeVoiceStreams ∧
  s.activeVoiceStreams.Nodup

theorem map_userId_update (u : String) (chunk : List Nat) :
    ∀ l : List StreamRec,
      (l.map fun r =>
        if r.userId == u then { r with wavChunks := r.wavChunks ++ [chunk] }
        else r).map StreamRec.userId = l.map StreamRec.userId := by
  intro l
  induction l with
  | nil => rfl
  | cons r t ih =>
    simp only [List.map_cons, ih]
    by_cases h : r.userId == u
    · rw [if_pos h]
    · rw [if_neg h]

theorem map_userId_eraseP (u : String) :
    ∀ l : List StreamRec,
      (l.eraseP (fun x => x.userId == u)).map StreamRec.userId =
        (l.map StreamRec.userId).erase u := by
  intro l
  induction l with
  | nil => rfl
  | cons r t ih =>
    by_cases h : r.userId == u
    · have h' : r.userId = u := by simpa using h
      simp [List.eraseP_cons, List.erase_cons, h, h']
    · have h' : ¬(r.userId = u) := by simpa using h
      simp [List.eraseP_cons, List.erase_cons, h, h', ih]

theorem captureInvariant_step {s : CaptureState} (h : CaptureInvariant s)
    (e : CaptureEvent) : CaptureInvariant (applyCapture s e) := by
  obtain ⟨h1, h2⟩ := h
  cases e with
  | speakingStart u t =>
    simp only [applyCapture]
    by_cases hu : u ∈ s.activeVoiceStreams
    · rw [if_pos hu]
      exact ⟨h1, h2⟩
    · rw [if_neg hu]
      cases hm : s.members.find? (fun p => p.1 == u) with
      | none => exact ⟨h1, h2⟩
      | some m =>
        refine ⟨?_, ?_⟩
        · simp [h1]
        · simp [List.nodup_append, h2, hu]
  | streamData u chunk =>
    simp only [applyCapture]
    exact ⟨by rw [map_userId_update]; exact h1, h2⟩
  | streamEnd u t =>
    simp only [applyCapture]
    cases hf : s.streams.find? (fun r => r.userId == u) with
    | none => exact ⟨h1, h2⟩
    | some r =>
      exact ⟨by rw [map_userId_eraseP, h1], h2.erase u⟩
  | streamError u =>
    simp only [applyCapture]
    exact ⟨by rw [map_userId_eraseP, h1], h2.erase u⟩

theorem captureInvariant_run (members : List (String × MemberData)) :
    ∀ events : List CaptureEvent,
      CaptureInvariant (runCapture members events) := by
  have hgen : ∀ (events : List CaptureEvent) (s : CaptureState),
      CaptureInvariant s → CaptureInvariant (events.foldl applyCapture s) := by
    intro events
    induction events with
    | nil => intro s h; exact h
    | cons e es ih => intro s h; exact ih _ (captureInvariant_step h e)
  intro events
  exact hgen events ⟨[], [], members, []⟩ ⟨rfl, List.nodup_nil⟩

theorem countP_userId_le_one (u : String) :
    ∀ l : List StreamRec, (l.map StreamRec.userId).Nodup →
      l.countP (fun r => r.userId == u) ≤ 1 := by
  intro l
  induction l with
  | nil => intro _; simp
  | cons r t ih =>
    intro hnd
    rw [List.map_cons, List.nodup_cons] at hnd
    obtain ⟨hmem, hnd'⟩ := hnd
    rw [List.countP_cons]
    by_cases h : r.userId == u
    · have h' : r.userId = u := by simpa using h
      have hzero : t.countP (fun x => x.userId == u) = 0 := by
        rw [List.countP_eq_zero]
        intro a ha hcon
        have hau : a.userId = u := by simpa using hcon
        apply hmem
        rw [h', ← hau]
        exact List.mem_map_of_mem StreamRec.userId ha
      simp [h, hzero]
    · simp [h]
      exact ih hnd'

/-- C4: for every event sequence, at most one active stream exists per
speaker at any instant, and a speaking-start event for a speaker who
already has an active stream is a complete no-op (same state: no second
stream, no second subscription, no job). -/
theorem one_active_stream_per_speaker
    (members : List (String × MemberData)) (events : List CaptureEvent)
    (u : String) :
    (runCapture members events).streams.countP
        (fun r => r.userId == u) ≤ 1 ∧
    (∀ (s : CaptureState) (t : Int), u ∈ s.activeVoiceStreams →
      applyCapture s (.speakingStart u t) = s) := by
  constructor
  · obtain ⟨h1, h2⟩ := captureInvariant_run members events
    exact countP_userId_le_one u _ (by rw [h1]; exact h2)
  · intro s t hmem
    simp only [applyCapture]
    rw [if_pos hmem]

/-- Witness for C4: a duplicate speaking-start for speaker `u1`, who is
already active, leaves the concrete state unchanged. -/
theorem one_active_stream_per_speaker_witness :
    applyCapture
        ⟨["u1"], [⟨"u1", "gm", 0, []⟩], [("u1", ⟨"P1", "gm"⟩)], []⟩
        (.speakingStart "u1" 5) =
      ⟨["u1"], [⟨"u1", "gm", 0, []⟩], [("u1", ⟨"P1", "gm"⟩)], []⟩ :=
  (one_active_stream_per_speaker [("u1", ⟨"P1", "gm"⟩)] [] "u1").2
    ⟨["u1"], [⟨"u1", "gm", 0, []⟩], [("u1", ⟨"P1", "gm"⟩)], []⟩ 5 (by decide)

/-- C8: when the capture stream of speaker `u` terminates at time `t`,
the speaker's active-stream entry is released whether or not the
accumulated buffer is empty; a `TranscriptionJob` is emitted exactly
when the concatenated buffer is non-empty, and that job carries
`startedAt` = the capture start time and
`endedAt = t - SILENCE_DURATION`. -/
theorem stream_end_releases_and_emits (s : CaptureState) (u : String)
    (t : Int) (r : StreamRec) (hinv : CaptureInvariant s)
    (hf : s.streams.find? (fun x => x.userId == u) = some r) :
    u ∉ (applyCapture s (.streamEnd u t)).activeVoiceStreams ∧
    (r.wavChunks.flatten ≠ [] →
      (applyCapture s (.streamEnd u t)).emitted =
        s.emitted ++ [⟨u, r.sessionId, r.startedAt,
          t - (SILENCE_DURATION : Int), r.wavChunks.flatten⟩]) ∧
    (r.wavChunks.flatten = [] →
      (applyCapture s (.streamEnd u t)).emitted = s.emitted) := by
  have heq : applyCapture s (.streamEnd u t) =
      { s with
        activeVoiceStreams := s.activeVoiceStreams.erase u
        streams := s.streams.eraseP (fun x => x.userId == u)
        emitted :=
          if r.wavChunks.flatten ≠ [] then
            s.emitted ++ [⟨u, r.sessionId, r.startedAt,
              t - (SILENCE_DURATION : Int), r.wavChunks.flatten⟩]
          else s.emitted } := by
    simp only [applyCapture]
    rw [hf]
  rw [heq]
  refine ⟨?_, ?_, ?_⟩
  · intro hmem
    rw [List.Nodup.mem_erase_iff hinv.2] at hmem
    exact hmem.1 rfl
  · intro hne
    simp only [if_pos hne]
  · intro hnil
    simp only [hnil]
    simp

/-- Witness for C8 at a concrete state: speaker `u1` is active with two
accumulated chunks; termination at t = 5000 releases the entry and
emits the job with `endedAt = 4500`. -/
theorem stream_end_releases_and_emits_witness :
    "u1" ∉ (applyCapture
        ⟨["u1"], [⟨"u1", "gm", 100, [[1, 2], [3]]⟩],
          [("u1", ⟨"P1", "gm"⟩)], []⟩
        (.streamEnd "u1" 5000)).activeVoiceStreams ∧
    (([[1, 2], [3]] : List (List Nat)).flatten ≠ [] →
      (applyCapture
          ⟨["u1"], [⟨"u1", "gm", 100, [[1, 2], [3]]⟩],
            [("u1", ⟨"P1", "gm"⟩)], []⟩
          (.streamEnd "u1" 5000)).emitted =
        [] ++ [⟨"u1", "gm", 100, 5000 - (SILENCE_DURATION : Int),
          ([[1, 2], [3]] : List (List Nat)).flatten⟩]) ∧
    (([[1, 2], [3]] : List (List Nat)).flatten = [] →
      (applyCapture
          ⟨["u1"], [⟨"u1", "gm", 100, [[1, 2], [3]]⟩],
            [("u1", ⟨"P1", "gm"⟩)], []⟩
          (.streamEnd "u1" 5000)).emitted = []) :=
  stream_end_releases_and_emits
    ⟨["u1"], [⟨"u1", "gm", 100, [[1, 2], [3]]⟩], [("u1", ⟨"P1", "gm"⟩)], []⟩
    "u1" 5000 ⟨"u1", "gm", 100, [[1, 2], [3]]⟩
    (by unfold CaptureInvariant; exact ⟨by decide, by decide⟩) (by decide)

end NoteIfy
